import Mathlib

/-!
Verification of the fuzzy-overlay favorability pipeline.

The development shallowly embeds the two scripts of the repository:
`modelgeneration.py` (Gaussian fuzzy membership and fuzzy-gamma overlay)
and the model-validation script (point extraction, nodata-aware random
background sampling, and the rank-based discrimination score).  Grids are
row-major lists of rows; machine floats are modelled as exact rationals
(or reals where the exponential function is involved); the IEEE
not-a-number sentinel is modelled by an explicit constructor.
-/

/-- Row-major 2-D array, as the numpy arrays of the scripts. -/
abbrev Grid (α : Type) := List (List α)

/-- Element-wise combination of two equally shaped grids, as a numpy
binary ufunc applied to two 2-D arrays. -/
def zipGrid {α : Type} (f : α → α → α) (g h : Grid α) : Grid α :=
  List.zipWith (List.zipWith f) g h

/-- Shape equality of two grids: same row count and row lengths. -/
def shapeEq {α : Type} (g h : Grid α) : Bool :=
  g.length == h.length && (List.zip g h).all (fun p => p.1.length == p.2.length)

/-- Embedding of `np.minimum.reduce(fuzzy_arrays)` in `fuzzy_gamma_overlay`
(src/modelgeneration.py line 15): the element-wise minimum, folded across
the list of layers. -/
def fuzzy_and {α : Type} [LinearOrder α] : List (Grid α) → Grid α
  | [] => []
  | g :: gs => gs.foldl (zipGrid min) g

/-- Embedding of `np.maximum.reduce(fuzzy_arrays)` in `fuzzy_gamma_overlay`
(src/modelgeneration.py line 16): the element-wise maximum, folded across
the list of layers. -/
def fuzzy_or {α : Type} [LinearOrder α] : List (Grid α) → Grid α
  | [] => []
  | g :: gs => gs.foldl (zipGrid max) g

/-- Embedding of `fuzzy_gamma_overlay` (src/modelgeneration.py lines 11-17):
`(fuzzy_and * (1 - gamma_val)) * (fuzzy_or * gamma_val)` cell-wise.  numpy
raises on an empty reduction and on non-broadcastable shapes, which the
embedding reports through `Except.error`; no other validation is performed
by the source. -/
def fuzzy_gamma_overlay {α : Type} [LinearOrderedField α]
    (fuzzy_arrays : List (Grid α)) (gamma_val : α) : Except String (Grid α) :=
  match fuzzy_arrays with
  | [] => Except.error "zero-size array to reduction operation"
  | g :: gs =>
    if gs.all (fun h => shapeEq g h) then
      Except.ok (zipGrid (fun a o => (a * (1 - gamma_val)) * (o * gamma_val))
        (fuzzy_and (g :: gs)) (fuzzy_or (g :: gs)))
    else Except.error "operands could not be broadcast together"

/-- C1: the claim states that every cell of the overlay output lies between
the fuzzy-AND and fuzzy-OR values at that cell.  The code computes
`(and * (1 - gamma)) * (or * gamma)`, which violates this bound: on the
single layer `[[1/2]]` with `gamma = 1/2`, both the AND and the OR grid are
`[[1/2]]`, yet the overlay returns `[[1/16]]`, strictly below the lower
bound `1/2`. -/
theorem overlay_bound_violated :
    fuzzy_gamma_overlay [[[(1 : ℚ)/2]]] (1/2) = Except.ok [[1/16]] ∧
    fuzzy_and [[[(1 : ℚ)/2]]] = [[1/2]] ∧
    fuzzy_or [[[(1 : ℚ)/2]]] = [[1/2]] ∧
    ¬ ((1 : ℚ)/2 ≤ 1/16) := by
  refine ⟨?_, rfl, rfl, by norm_num⟩
  simp [fuzzy_gamma_overlay, fuzzy_and, fuzzy_or, zipGrid, shapeEq]
  norm_num

/-- C2: the claim states that `gamma = 0` reduces the overlay to the
fuzzy-AND grid and `gamma = 1` to the fuzzy-OR grid.  The code returns the
zero grid at both endpoints: on the single layer `[[1]]`, whose AND and OR
grids are `[[1]]`, the overlay at `gamma = 0` and at `gamma = 1` is `[[0]]`. -/
theorem overlay_gamma_endpoints_violated :
    fuzzy_gamma_overlay [[[(1 : ℚ)]]] 0 = Except.ok [[0]] ∧
    fuzzy_gamma_overlay [[[(1 : ℚ)]]] 1 = Except.ok [[0]] ∧
    fuzzy_and [[[(1 : ℚ)]]] = [[1]] ∧
    fuzzy_or [[[(1 : ℚ)]]] = [[1]] ∧
    (0 : ℚ) ≠ 1 := by
  refine ⟨?_, ?_, rfl, rfl, by norm_num⟩ <;>
    simp [fuzzy_gamma_overlay, fuzzy_and, fuzzy_or, zipGrid, shapeEq]

/-- C6 counterexample: the claim states that the overlay operation rejects
gamma outside `[0,1]` with a validation error before any numeric work.  The
code performs no such check: at `gamma = 2` on the layer `[[1/2]]` it
returns an ordinary numeric grid rather than an error. -/
theorem overlay_gamma_no_validation_cex :
    fuzzy_gamma_overlay [[[(1 : ℚ)/2]]] 2 = Except.ok [[-(1/2)]] := by
  simp [fuzzy_gamma_overlay, fuzzy_and, fuzzy_or, zipGrid, shapeEq]
  norm_num

/-- C6 amended: neither operation validates its parameters.  The overlay
operation accepts gamma outside `[0,1]` and computes
`(and * (1 - gamma)) * (or * gamma)` anyway, propagating out-of-range
results: at `gamma = 2` on the layer `[[1/2]]` it returns `[[-1/2]]`, a
value below the fuzzy range `[0,1]`. -/
theorem overlay_gamma_no_validation :
    fuzzy_gamma_overlay [[[(1 : ℚ)/2]]] 2 = Except.ok [[-(1/2)]] ∧
    (-(1/2) : ℚ) < 0 := by
  refine ⟨?_, by norm_num⟩
  simp [fuzzy_gamma_overlay, fuzzy_and, fuzzy_or, zipGrid, shapeEq]
  norm_num

/-- Embedding of `gaussian_membership` (src/modelgeneration.py lines 5-9),
applied to one cell value: `np.exp(-((array - c) * 2) / (2 * sigma * 2))`.
Note the source multiplies by 2 where the Gaussian form would square. -/
noncomputable def gaussian_membership (v c sigma : ℝ) : ℝ :=
  Real.exp (-((v - c) * 2) / (2 * sigma * 2))

/-- Cell-wise application of `gaussian_membership` to a whole grid, as the
source applies it to the whole numpy array. -/
noncomputable def gaussian_membership_grid (g : Grid ℝ) (c sigma : ℝ) : Grid ℝ :=
  g.map (fun row => row.map (fun v => gaussian_membership v c sigma))

/-- The Gaussian membership form stated by the spec,
`exp(-(v - center)^2 / (2 * spread^2))`, written down for comparison with
the source formula. -/
noncomputable def gaussian_membership_spec (v c sigma : ℝ) : ℝ :=
  Real.exp (-((v - c) ^ 2) / (2 * sigma ^ 2))

/-- C3: the claim states that the membership operation computes exactly the
Gaussian form and always yields a value in `(0, 1]`.  The code computes
`exp(-((v - c) * 2) / (2 * sigma * 2))` instead: at `v = 0`, `c = 1`,
`sigma = 1` this is `exp(1/2) > 1`, while the Gaussian form gives
`exp(-1/2)`, so the two disagree and the code leaves `(0, 1]`. -/
theorem membership_not_gaussian :
    gaussian_membership 0 1 1 = Real.exp (1/2) ∧
    1 < gaussian_membership 0 1 1 ∧
    gaussian_membership_spec 0 1 1 = Real.exp (-(1/2)) ∧
    gaussian_membership 0 1 1 ≠ gaussian_membership_spec 0 1 1 := by
  have h1 : gaussian_membership 0 1 1 = Real.exp (1/2) := by
    unfold gaussian_membership; norm_num
  have h2 : gaussian_membership_spec 0 1 1 = Real.exp (-(1/2)) := by
    unfold gaussian_membership_spec; norm_num
  refine ⟨h1, ?_, h2, ?_⟩
  · rw [h1]; exact Real.one_lt_exp_iff.mpr (by norm_num)
  · rw [h1, h2]
    intro h
    have := Real.exp_injective h
    norm_num at this

/-- C5: the claim states that membership is exactly 1 at the center and is
symmetric about the center.  The center part holds in the code, since the
exponent vanishes at `v = c`, but symmetry fails: with center 0 and spread
1, the code gives `exp(1/2)` at `v = -1` and `exp(-1/2)` at `v = 1`. -/
theorem membership_symmetry_violated :
    gaussian_membership 0 0 1 = 1 ∧
    gaussian_membership (0 - 1) 0 1 = Real.exp (1/2) ∧
    gaussian_membership (0 + 1) 0 1 = Real.exp (-(1/2)) ∧
    gaussian_membership (0 - 1) 0 1 ≠ gaussian_membership (0 + 1) 0 1 := by
  have h1 : gaussian_membership 0 0 1 = 1 := by
    unfold gaussian_membership; norm_num
  have h2 : gaussian_membership (0 - 1) 0 1 = Real.exp (1/2) := by
    unfold gaussian_membership; norm_num
  have h3 : gaussian_membership (0 + 1) 0 1 = Real.exp (-(1/2)) := by
    unfold gaussian_membership; norm_num
  refine ⟨h1, h2, h3, ?_⟩
  rw [h2, h3]
  intro h
  have := Real.exp_injective h
  norm_num at this

/-- Constant 3-by-3 grid, the shape used by the end-to-end scenario. -/
def constGrid3 {α : Type} (v : α) : Grid α := [[v, v, v], [v, v, v], [v, v, v]]

/-- C4: the end-to-end scenario of the spec.  The membership half holds in
the code (each constant grid sits at its layer center, the exponent is 0
and the layer is constantly 1), but the overlay of three all-one layers at
`gamma = 0.85` is constantly `(1 * 0.15) * (1 * 0.85) = 0.1275`, not the
claimed 1.0. -/
theorem end_to_end_overlay_not_one :
    gaussian_membership_grid (constGrid3 50) 50 15 = constGrid3 1 ∧
    gaussian_membership_grid (constGrid3 (3/10)) (3/10) (1/10) = constGrid3 1 ∧
    gaussian_membership_grid (constGrid3 300) 300 60 = constGrid3 1 ∧
    fuzzy_gamma_overlay [constGrid3 (1 : ℝ), constGrid3 1, constGrid3 1] (85/100)
      = Except.ok (constGrid3 (1275/10000)) ∧
    (1275/10000 : ℝ) ≠ 1 := by
  refine ⟨?_, ?_, ?_, ?_, by norm_num⟩
  · simp [gaussian_membership_grid, gaussian_membership, constGrid3]
  · simp [gaussian_membership_grid, gaussian_membership, constGrid3]
  · simp [gaussian_membership_grid, gaussian_membership, constGrid3]
  · simp [fuzzy_gamma_overlay, fuzzy_and, fuzzy_or, zipGrid, shapeEq, constGrid3]
    norm_num

/-- Cell value of a raster: either the IEEE not-a-number sentinel or an
ordinary (finite) number, modelled as an exact rational. -/
inductive FVal where
  | nan : FVal
  | num : ℚ → FVal
deriving DecidableEq

/-- Embedding of `np.isnan` on one value. -/
def FVal.isnan : FVal → Bool
  | .nan => true
  | .num _ => false

/-- IEEE inequality `x != y`: a not-a-number value compares unequal to
everything, itself included. -/
def fne : FVal → FVal → Bool
  | .num p, .num q => p != q
  | _, _ => true

/-- Affine georeferencing transform, with the six coefficients of a
rasterio `Affine`: `(col, row)` is mapped to
`(a * col + b * row + c, d * col + e * row + f)`. -/
structure Affine where
  a : ℚ
  b : ℚ
  c : ℚ
  d : ℚ
  e : ℚ
  f : ℚ
deriving DecidableEq

/-- Truncation toward zero, as Python `int(...)` on a float. -/
def ratTrunc (q : ℚ) : ℤ := if 0 ≤ q then ⌊q⌋ else ⌈q⌉

/-- Embedding of `~transform * (point.x, point.y)` followed by
`int(col), int(row)` (part_000 lines 42-44): the inverse affine transform
applied to a world coordinate, truncated to integer column and row. -/
def worldToIndex (t : Affine) (x y : ℚ) : ℤ × ℤ :=
  let det := t.a * t.e - t.b * t.d
  let colf := (t.e * (x - t.c) - t.b * (y - t.f)) / det
  let rowf := (t.a * (y - t.f) - t.d * (x - t.c)) / det
  (ratTrunc colf, ratTrunc rowf)

/-- Row-major cell read `raster[row, col]`, with a default outside the
lists (never exercised behind the bounds check of the source). -/
def cellValue (raster : Grid FVal) (r ccol : ℕ) : FVal :=
  (raster.getD r []).getD ccol (FVal.num 0)

/-- Embedding of `extract_values` (part_000 lines 38-53): for each point,
map world coordinates to integer indices, keep only in-bounds cells, and
keep a cell value only if it passes the nodata test
`(isnan(nodata) and not isnan(val)) or (not isnan(nodata) and val != nodata)`. -/
def extract_values (points : List (ℚ × ℚ)) (raster : Grid FVal) (t : Affine)
    (height width : ℤ) (nodata : FVal) : List FVal :=
  points.bind (fun p =>
    let ci := worldToIndex t p.1 p.2
    let col := ci.1
    let row := ci.2
    if 0 ≤ row ∧ row < height ∧ 0 ≤ col ∧ col < width then
      let val := cellValue raster row.toNat col.toNat
      if (nodata.isnan && !val.isnan) || (!nodata.isnan && fne val nodata) then
        [val]
      else []
    else [])

/-- A value readable from an in-bounds cell of the raster, for the given
declared height and width. -/
def fromInBoundsCell (raster : Grid FVal) (height width : ℤ) (v : FVal) : Prop :=
  ∃ r ccol : ℤ, 0 ≤ r ∧ r < height ∧ 0 ≤ ccol ∧ ccol < width ∧
    v = cellValue raster r.toNat ccol.toNat

/-- A value that survives the nodata test is never the sentinel itself, and
is never a not-a-number value when the sentinel is one. -/
theorem keep_ne_nodata {v nodata : FVal}
    (h : ((nodata.isnan && !v.isnan) || (!nodata.isnan && fne v nodata)) = true) :
    v ≠ nodata ∧ (nodata.isnan = true → v.isnan = false) := by
  cases v with
  | nan => cases nodata with
    | nan => simp [FVal.isnan, fne] at h
    | num q => simp [FVal.isnan]
  | num p => cases nodata with
    | nan => simp [FVal.isnan]
    | num q =>
      simp [FVal.isnan, fne] at h
      simp [FVal.isnan, h]

/-- C7: every value returned by the extraction operation comes from a cell
whose index lies in `[0, H) x [0, W)`, is never equal to the nodata
sentinel, and is never a not-a-number value when the sentinel is one (the
not-a-number sentinel is detected by kind, not by numeric equality). -/
theorem extract_values_sound (points : List (ℚ × ℚ)) (raster : Grid FVal)
    (t : Affine) (height width : ℤ) (nodata : FVal) :
    ∀ v ∈ extract_values points raster t height width nodata,
      fromInBoundsCell raster height width v ∧ v ≠ nodata ∧
      (nodata.isnan = true → v.isnan = false) := by
  intro v hv
  rw [extract_values, List.mem_bind] at hv
  obtain ⟨p, _, hp⟩ := hv
  simp only at hp
  by_cases hb : 0 ≤ (worldToIndex t p.1 p.2).2 ∧ (worldToIndex t p.1 p.2).2 < height ∧
      0 ≤ (worldToIndex t p.1 p.2).1 ∧ (worldToIndex t p.1 p.2).1 < width
  · rw [if_pos hb] at hp
    by_cases hk : ((nodata.isnan &&
        !(cellValue raster (worldToIndex t p.1 p.2).2.toNat
          (worldToIndex t p.1 p.2).1.toNat).isnan) ||
        (!nodata.isnan && fne (cellValue raster (worldToIndex t p.1 p.2).2.toNat
          (worldToIndex t p.1 p.2).1.toNat) nodata)) = true
    · rw [if_pos hk] at hp
      rw [List.mem_singleton] at hp
      subst hp
      refine ⟨⟨(worldToIndex t p.1 p.2).2, (worldToIndex t p.1 p.2).1,
        hb.1, hb.2.1, hb.2.2.1, hb.2.2.2, rfl⟩, keep_ne_nodata hk⟩
    · rw [if_neg hk] at hp
      exact absurd hp (List.not_mem_nil _)
  · rw [if_neg hb] at hp
    exact absurd hp (List.not_mem_nil _)

/-- C7 witness: the soundness of extraction, instantiated on a 1-by-1 grid
holding 5 with an identity transform, the single point (0, 0) and nodata 0,
whose extraction is the one-element list [5]. -/
theorem extract_values_sound_witness :
    fromInBoundsCell [[FVal.num 5]] 1 1 (FVal.num 5) ∧
    FVal.num 5 ≠ FVal.num 0 ∧
    ((FVal.num 0).isnan = true → (FVal.num 5).isnan = false) :=
  extract_values_sound [((0 : ℚ), 0)] [[FVal.num 5]] ⟨1, 0, 0, 0, 1, 0⟩ 1 1
    (FVal.num 0) (FVal.num 5)
    (by simp [extract_values, worldToIndex, ratTrunc, cellValue, FVal.isnan, fne])

/-- C10: when the nodata sentinel is a finite number, a not-a-number cell
value passes the test `val != nodata` (IEEE inequality holds between a
not-a-number value and any number), so the extraction operation appends the
not-a-number value to the sample vector instead of skipping it. -/
theorem extract_values_keeps_nan (x y : ℚ) (raster : Grid FVal) (t : Affine)
    (height width : ℤ) (q : ℚ)
    (hrow : 0 ≤ (worldToIndex t x y).2 ∧ (worldToIndex t x y).2 < height)
    (hcol : 0 ≤ (worldToIndex t x y).1 ∧ (worldToIndex t x y).1 < width)
    (hcell : cellValue raster (worldToIndex t x y).2.toNat (worldToIndex t x y).1.toNat
      = FVal.nan) :
    extract_values [(x, y)] raster t height width (FVal.num q) = [FVal.nan] := by
  simp [extract_values, hrow.1, hrow.2, hcol.1, hcol.2, hcell, FVal.isnan, fne]

/-- C10 witness: on a 1-by-1 grid holding a not-a-number cell, with an
identity transform, the point (0, 0) and finite nodata 0, extraction
returns the not-a-number value. -/
theorem extract_values_keeps_nan_witness :
    extract_values [((0 : ℚ), 0)] [[FVal.nan]] ⟨1, 0, 0, 0, 1, 0⟩ 1 1
      (FVal.num 0) = [FVal.nan] :=
  extract_values_keeps_nan 0 0 [[FVal.nan]] ⟨1, 0, 0, 0, 1, 0⟩ 1 1 0
    (by simp [worldToIndex, ratTrunc])
    (by simp [worldToIndex, ratTrunc])
    (by simp [worldToIndex, ratTrunc, cellValue])

/-- Validity mask for one cell (part_000 lines 60-63): when the nodata
sentinel is a not-a-number value the cell is valid iff it is not one
itself; otherwise the cell is valid iff it differs from the sentinel under
IEEE comparison. -/
def validCell (nodata v : FVal) : Bool :=
  if nodata.isnan then !v.isnan else fne v nodata

/-- Valid positions contributed by one raster row `vs`, at row index `r`,
with `ccol` the column index of the head of `vs`. -/
def rowValid (nodata : FVal) (r : ℕ) : List FVal → ℕ → List (ℕ × ℕ)
  | [], _ => []
  | v :: vs, ccol =>
    (if validCell nodata v then [(r, ccol)] else []) ++ rowValid nodata r vs (ccol + 1)

/-- Valid positions of a raster from row index `r` downward, row-major. -/
def gridValid (nodata : FVal) : Grid FVal → ℕ → List (ℕ × ℕ)
  | [], _ => []
  | row :: rest, r => rowValid nodata r row 0 ++ gridValid nodata rest (r + 1)

/-- Embedding of `rows, cols = np.where(valid_mask)` (part_000 lines 59-64):
the row-major list of all valid cell positions. -/
def validPositions (raster : Grid FVal) (nodata : FVal) : List (ℕ × ℕ) :=
  gridValid nodata raster 0

/-- Embedding of `raster_data[rows[rand_idx], cols[rand_idx]]` (part_000
line 71): the cell values at the drawn valid positions, in draw order. -/
def sampleValues (raster : Grid FVal) (nodata : FVal) (draw : List ℕ) : List FVal :=
  draw.map (fun i =>
    let p := (validPositions raster nodata).getD i (0, 0)
    cellValue raster p.1 p.2)

/-- Embedding of the background-sampling step (part_000 lines 66-71).  The
random draw of `np.random.choice(len(rows), size=sample_size,
replace=False)` is made explicit as the index list `draw`; its contract
(length `sample_size = min(len(rows), len(occurrence_values))`, no
repetition, indices in range) appears as hypotheses of the theorems below.
The source raises when `sample_size == 0`. -/
def randomSampling (raster : Grid FVal) (nodata : FVal) (occCount : ℕ)
    (draw : List ℕ) : Except String (List FVal) :=
  if min (validPositions raster nodata).length occCount = 0 then
    Except.error "No valid pixels for random sampling"
  else Except.ok (sampleValues raster nodata draw)

/-- Positions listed for one row carry that row index, and column indices
at least the starting column. -/
theorem rowValid_mem (nodata : FVal) (r : ℕ) :
    ∀ (vs : List FVal) (ccol : ℕ) (p : ℕ × ℕ),
      p ∈ rowValid nodata r vs ccol → p.1 = r ∧ ccol ≤ p.2 := by
  intro vs
  induction vs with
  | nil => intro ccol p hp; simp [rowValid] at hp
  | cons v vs ih =>
    intro ccol p hp
    rw [rowValid] at hp
    rcases List.mem_append.1 hp with h | h
    · by_cases hv : validCell nodata v
      · rw [if_pos hv, List.mem_singleton] at h
        subst h; exact ⟨rfl, le_refl _⟩
      · rw [if_neg hv] at h
        exact absurd h (List.not_mem_nil _)
    · obtain ⟨h1, h2⟩ := ih (ccol + 1) p h
      exact ⟨h1, le_trans (Nat.le_succ _) h2⟩

/-- The positions listed for one row are pairwise distinct. -/
theorem rowValid_nodup (nodata : FVal) (r : ℕ) :
    ∀ (vs : List FVal) (ccol : ℕ), (rowValid nodata r vs ccol).Nodup := by
  intro vs
  induction vs with
  | nil => intro ccol; simp [rowValid]
  | cons v vs ih =>
    intro ccol
    rw [rowValid]
    refine List.Nodup.append ?_ (ih (ccol + 1)) ?_
    · by_cases hv : validCell nodata v
      · rw [if_pos hv]; exact List.nodup_singleton _
      · rw [if_neg hv]; exact List.nodup_nil
    · intro p hp hq
      by_cases hv : validCell nodata v
      · rw [if_pos hv, List.mem_singleton] at hp
        subst hp
        have := (rowValid_mem nodata r vs (ccol + 1) _ hq).2
        omega
      · rw [if_neg hv] at hp
        exact absurd hp (List.not_mem_nil _)

/-- Positions listed from row `r` downward carry row indices at least `r`. -/
theorem gridValid_mem (nodata : FVal) :
    ∀ (rows : Grid FVal) (r : ℕ) (p : ℕ × ℕ),
      p ∈ gridValid nodata rows r → r ≤ p.1 := by
  intro rows
  induction rows with
  | nil => intro r p hp; simp [gridValid] at hp
  | cons row rest ih =>
    intro r p hp
    rw [gridValid] at hp
    rcases List.mem_append.1 hp with h | h
    · exact le_of_eq (rowValid_mem nodata r row 0 p h).1.symm
    · exact le_trans (Nat.le_succ _) (ih (r + 1) p h)

/-- The row-major list of valid positions has no duplicate position. -/
theorem gridValid_nodup (nodata : FVal) :
    ∀ (rows : Grid FVal) (r : ℕ), (gridValid nodata rows r).Nodup := by
  intro rows
  induction rows with
  | nil => intro r; simp [gridValid]
  | cons row rest ih =>
    intro r
    rw [gridValid]
    refine List.Nodup.append (rowValid_nodup nodata r row 0) (ih (r + 1)) ?_
    intro p hp hq
    have h1 := (rowValid_mem nodata r row 0 p hp).1
    have h2 := gridValid_mem nodata rest (r + 1) p hq
    omega

/-- The list built by `np.where(valid_mask)` holds pairwise distinct cells. -/
theorem validPositions_nodup (raster : Grid FVal) (nodata : FVal) :
    (validPositions raster nodata).Nodup :=
  gridValid_nodup nodata raster 0

/-- C8: when the requested background count (the foreground sample size in
the source) exceeds the number of valid cells, the sampling step clamps:
it succeeds, returns exactly as many values as there are valid cells, and
the drawn cells are pairwise distinct (no replacement). -/
theorem randomSampling_clamps (raster : Grid FVal) (nodata : FVal)
    (occCount : ℕ) (draw : List ℕ)
    (hlen : draw.length = min (validPositions raster nodata).length occCount)
    (hnd : draw.Nodup)
    (hbound : ∀ i ∈ draw, i < (validPositions raster nodata).length)
    (hpos : 0 < (validPositions raster nodata).length)
    (hclamp : (validPositions raster nodata).length < occCount) :
    randomSampling raster nodata occCount draw
      = Except.ok (sampleValues raster nodata draw) ∧
    (sampleValues raster nodata draw).length
      = (validPositions raster nodata).length ∧
    (draw.map (fun i => (validPositions raster nodata).getD i (0, 0))).Nodup := by
  have hmin : min (validPositions raster nodata).length occCount
      = (validPositions raster nodata).length := min_eq_left hclamp.le
  refine ⟨?_, ?_, ?_⟩
  · rw [randomSampling, if_neg (by omega)]
  · rw [sampleValues, List.length_map, hlen, hmin]
  · refine List.Nodup.map_on ?_ hnd
    intro i hi j hj hij
    have hi2 := hbound i hi
    have hj2 := hbound j hj
    rw [List.getD_eq_getElem _ _ hi2, List.getD_eq_getElem _ _ hj2] at hij
    exact (List.Nodup.getElem_inj_iff (validPositions_nodup raster nodata)).1 hij

/-- C8 witness: a 1-by-2 raster with two valid cells, a requested count of
3 and the draw [1, 0] of both valid cells. -/
theorem randomSampling_clamps_witness :
    randomSampling [[FVal.num 1, FVal.num 2]] FVal.nan 3 [1, 0]
      = Except.ok (sampleValues [[FVal.num 1, FVal.num 2]] FVal.nan [1, 0]) ∧
    (sampleValues [[FVal.num 1, FVal.num 2]] FVal.nan [1, 0]).length
      = (validPositions [[FVal.num 1, FVal.num 2]] FVal.nan).length ∧
    ([1, 0].map (fun i =>
      (validPositions [[FVal.num 1, FVal.num 2]] FVal.nan).getD i (0, 0))).Nodup :=
  randomSampling_clamps [[FVal.num 1, FVal.num 2]] FVal.nan 3 [1, 0]
    (by decide) (by decide) (by decide) (by decide) (by decide)

/-- Modelled from the spec: the discrimination score is computed by
`sklearn.metrics.roc_auc_score`, an external library that is not part of
this repository.  The spec defines it as the probability that a uniformly
random foreground score exceeds a uniformly random background score, a tie
counting one-half; this is the score of one foreground/background pair. -/
def pairScore (f b : ℚ) : ℚ :=
  if b < f then 1 else if f = b then 1/2 else 0

/-- Modelled from the spec: the rank-based discrimination score (AUC) of a
foreground and a background sample vector, the mean of `pairScore` over all
pairs.  The source builds the label vector `[1 ... 1, 0 ... 0]` against the
concatenated scores (part_000 lines 74-77) and hands both to the external
scorer, whose contract is this statistic. -/
def auc (fg bg : List ℚ) : ℚ :=
  (fg.map (fun f => (bg.map (fun b => pairScore f b)).sum)).sum
    / (fg.length * bg.length)

/-- Sum of a map that is constant on the list. -/
theorem sum_map_of_forall_eq {α : Type} (l : List α) (g : α → ℚ) (c : ℚ)
    (h : ∀ a ∈ l, g a = c) : (l.map g).sum = l.length * c := by
  induction l with
  | nil => simp
  | cons a l ih =>
    simp only [List.map_cons, List.sum_cons, List.length_cons]
    rw [h a (List.mem_cons_self a l), ih (fun b hb => h b (List.mem_cons_of_mem a hb))]
    push_cast
    ring

/-- C9: boundary behavior of the discrimination score.  It is 1 whenever
every foreground score exceeds every background score, 0 whenever every
foreground score is below every background score, 1/2 when all scores are
tied, and in particular takes the values 1, 0 and 1/2 on the three concrete
foreground/background pairs of the spec. -/
theorem auc_boundary :
    (∀ fg bg : List ℚ, fg ≠ [] → bg ≠ [] →
      (∀ f ∈ fg, ∀ b ∈ bg, b < f) → auc fg bg = 1) ∧
    (∀ fg bg : List ℚ, fg ≠ [] → bg ≠ [] →
      (∀ f ∈ fg, ∀ b ∈ bg, f < b) → auc fg bg = 0) ∧
    (∀ fg bg : List ℚ, fg ≠ [] → bg ≠ [] →
      (∀ f ∈ fg, ∀ b ∈ bg, f = b) → auc fg bg = 1/2) ∧
    auc [9/10, 8/10] [1/10, 2/10] = 1 ∧
    auc [1/10, 2/10] [9/10, 8/10] = 0 ∧
    auc [1/2, 1/2] [1/2, 1/2] = 1/2 := by
  refine ⟨?_, ?_, ?_, ?_, ?_, ?_⟩
  · intro fg bg hf hb h
    have hnf : (fg.length : ℚ) ≠ 0 := Nat.cast_ne_zero.mpr (by
      intro h0; exact hf (List.length_eq_zero.mp h0))
    have hnb : (bg.length : ℚ) ≠ 0 := Nat.cast_ne_zero.mpr (by
      intro h0; exact hb (List.length_eq_zero.mp h0))
    have houter : (fg.map (fun f => (bg.map (fun b => pairScore f b)).sum)).sum
        = fg.length * (bg.length * 1) := by
      refine sum_map_of_forall_eq fg _ _ ?_
      intro f hfm
      refine sum_map_of_forall_eq bg _ _ ?_
      intro b hbm
      rw [pairScore, if_pos (h f hfm b hbm)]
    rw [auc, houter]
    field_simp
  · intro fg bg hf hb h
    have houter : (fg.map (fun f => (bg.map (fun b => pairScore f b)).sum)).sum
        = fg.length * (bg.length * 0) := by
      refine sum_map_of_forall_eq fg _ _ ?_
      intro f hfm
      refine sum_map_of_forall_eq bg _ _ ?_
      intro b hbm
      rw [pairScore, if_neg (lt_asymm (h f hfm b hbm)),
        if_neg (ne_of_lt (h f hfm b hbm))]
    rw [auc, houter]
    simp
  · intro fg bg hf hb h
    have hnf : (fg.length : ℚ) ≠ 0 := Nat.cast_ne_zero.mpr (by
      intro h0; exact hf (List.length_eq_zero.mp h0))
    have hnb : (bg.length : ℚ) ≠ 0 := Nat.cast_ne_zero.mpr (by
      intro h0; exact hb (List.length_eq_zero.mp h0))
    have houter : (fg.map (fun f => (bg.map (fun b => pairScore f b)).sum)).sum
        = fg.length * (bg.length * (1/2)) := by
      refine sum_map_of_forall_eq fg _ _ ?_
      intro f hfm
      refine sum_map_of_forall_eq bg _ _ ?_
      intro b hbm
      rw [pairScore, if_neg (by rw [h f hfm b hbm]; exact lt_irrefl b),
        if_pos (h f hfm b hbm)]
    rw [auc, houter]
    field_simp
    ring
  · simp [auc, pairScore]; norm_num
  · simp [auc, pairScore]; norm_num
  · simp [auc, pairScore]; norm_num

/-- C9 witness: the three boundary statements instantiated on the singleton
sample vectors [2] versus [1], [1] versus [2], and [1] versus [1]. -/
theorem auc_boundary_witness :
    auc [2] [1] = 1 ∧ auc [1] [2] = 0 ∧ auc [1] [1] = 1/2 :=
  ⟨auc_boundary.1 [2] [1] (by simp) (by simp)
      (by intro f hf b hb; simp at hf hb; rw [hf, hb]; norm_num),
   auc_boundary.2.1 [1] [2] (by simp) (by simp)
      (by intro f hf b hb; simp at hf hb; rw [hf, hb]; norm_num),
   auc_boundary.2.2.1 [1] [1] (by simp) (by simp)
      (by intro f hf b hb; simp at hf hb; rw [hf, hb])⟩
